import Mathlib

/-!
Verification of the report-decoding core of `kandk/kklib.py`.

The Python source is shallowly embedded: machine integers become `Int`/`Nat`
(with explicit `% 2^w` where the source packs bytes), byte buffers become
`List`s, fallible operations (Python exceptions such as `ValueError`,
`IndexError` and `struct.error`) become `Except String`.  Python `float`
payloads that are only moved around by the parser are represented by their
little-endian 64-bit patterns; the `Phase` component, which performs real
arithmetic on its fractional part, models the float by a rational number
(all concrete inputs used in the theorems below are small dyadic values on
which IEEE-754 binary64 arithmetic is exact).
-/

namespace KKLib

/-- Sum view of an `Except` value, used to derive decidable equality. -/
def exceptToSum {ε α : Type} : Except ε α → ε ⊕ α
  | .error e => .inl e
  | .ok a => .inr a

instance {ε α : Type} [DecidableEq ε] [DecidableEq α] :
    DecidableEq (Except ε α) := fun a b =>
  decidable_of_iff (exceptToSum a = exceptToSum b)
    (by cases a <;> cases b <;> simp [exceptToSum])

/-- Embeds `header_to_PPI_mode` from kklib.py: `-1` for headers outside
`[0, 0x7000)`, otherwise the two bits at positions 6-7, with the reserved
bit pattern `2` also mapped to `-1`. -/
def header_to_PPI_mode (aHeader : ℤ) : ℤ :=
  if aHeader < 0 ∨ 0x7000 ≤ aHeader then -1
  else
    let b := (aHeader.toNat &&& 0x00C0) >>> 6
    if b = 2 then -1 else (b : ℤ)

/-- Embeds the Python enum `ErrorCode` (`KK_Result.result_code` values). -/
inductive ErrorCode where
  | KK_NO_ERR
  | KK_ERR
  | KK_ERR_ENUM_SERIAL
  | KK_ERR_ENUM_USB
  | KK_ERR_ENUM_SERIAL_USB
  | KK_ERR_BUFFER_TOO_SMALL
  | KK_ERR_BUFFER_OVERFLOW
  | KK_ERR_WRITE
  | KK_ERR_SERVER_DOWN
  | KK_ERR_DEVICE_NOT_CONNECTED
  | KK_HARDWARE_FAULT
  | KK_PARAM_ERROR
  | KK_CMD_IGNORED
  | KK_ERR_NOT_SUPPORTED
  | KK_ERR_RECONNECTED
  | KK_DLL_EXCEPTION
  | KK_DEVICE_RESETTED
  deriving DecidableEq

/-- Embeds the Python enum `C_Report_Error_Code` (device-level codes).
The numeric values 2 and 5 are absent from the Python enum. -/
inductive C_Report_Error_Code where
  | CKK_DLL_Error
  | CKK_DLL_NoError
  | CKK_DLL_WriteError
  | CKK_DLL_ServerDownError
  | CKK_DLL_BufferTooSmall
  | CKK_DLL_DeviceNotConnected
  | CKK_DLL_BufferOverflow
  | CKK_DLL_HardwareFault
  | CKK_DLL_SourceNotFound
  | CKK_DLL_CmdIgnored
  | CKK_DLL_NotSupported
  | CKK_DLL_Reconnected
  | CKK_DLL_Recovered
  | CKK_DLL_EXCEPTION
  deriving DecidableEq

/-- Embeds the Python enum-constructor call `C_Report_Error_Code(v)`:
`none` models the `ValueError` Python raises for a value that is not a
member of the enum (2, 5, and everything outside 0..15). -/
def C_Report_Error_Code.ofInt? (v : ℤ) : Option C_Report_Error_Code :=
  if v = 0 then some .CKK_DLL_Error
  else if v = 1 then some .CKK_DLL_NoError
  else if v = 3 then some .CKK_DLL_WriteError
  else if v = 4 then some .CKK_DLL_ServerDownError
  else if v = 6 then some .CKK_DLL_BufferTooSmall
  else if v = 7 then some .CKK_DLL_DeviceNotConnected
  else if v = 8 then some .CKK_DLL_BufferOverflow
  else if v = 9 then some .CKK_DLL_HardwareFault
  else if v = 10 then some .CKK_DLL_SourceNotFound
  else if v = 11 then some .CKK_DLL_CmdIgnored
  else if v = 12 then some .CKK_DLL_NotSupported
  else if v = 13 then some .CKK_DLL_Reconnected
  else if v = 14 then some .CKK_DLL_Recovered
  else if v = 15 then some .CKK_DLL_EXCEPTION
  else none

/-- Embeds the error-code mapping chain at the top of `KK_Report.__init__`:
`C_Report_Error_Code(ErrCode)` (which may raise `ValueError`) followed by
the if/elif cascade assigning `self._error_code`. -/
def mapErrCode (v : ℤ) : Except String ErrorCode :=
  match C_Report_Error_Code.ofInt? v with
  | none => .error "ValueError"
  | some kkErrorCode =>
    .ok <|
      if kkErrorCode = .CKK_DLL_NoError then .KK_NO_ERR
      else if kkErrorCode = .CKK_DLL_WriteError then .KK_ERR_WRITE
      else if kkErrorCode = .CKK_DLL_ServerDownError then .KK_ERR_SERVER_DOWN
      else if kkErrorCode = .CKK_DLL_DeviceNotConnected then .KK_ERR_DEVICE_NOT_CONNECTED
      else if kkErrorCode = .CKK_DLL_BufferOverflow then .KK_ERR_BUFFER_OVERFLOW
      else if kkErrorCode = .CKK_DLL_HardwareFault then .KK_HARDWARE_FAULT
      else if kkErrorCode = .CKK_DLL_CmdIgnored then .KK_CMD_IGNORED
      else if kkErrorCode = .CKK_DLL_Reconnected then .KK_ERR_RECONNECTED
      else if kkErrorCode = .CKK_DLL_Recovered then .KK_ERR_RECONNECTED
      else if kkErrorCode = .CKK_DLL_EXCEPTION then .KK_DLL_EXCEPTION
      else if kkErrorCode = .CKK_DLL_SourceNotFound then .KK_PARAM_ERROR
      else .KK_ERR

def KK_REPORT_MAX_BUFFER_SIZE : ℕ := 512

/-- Content capacity of the report struct: `512 - 1 - 1 - 2 - 4 - 8`. -/
def KK_REPORT_CONTENT_SIZE : ℕ := KK_REPORT_MAX_BUFFER_SIZE - 1 - 1 - 2 - 4 - 8

/-- Embeds the ctypes `C_ReportStruct`.  `Content` holds the signed values
that Python's indexing of a `c_byte` array returns (each in -128..127 for a
well-formed struct; the embedding does not need that bound). -/
structure C_ReportStruct where
  ReportType : ℤ
  ErrCode : ℤ
  Header : ℕ
  Len : ℤ
  DeviceMs : ℤ
  Content : List ℤ
  deriving DecidableEq

/-- Packing a Python integer through `c_byte(v)` and reading the resulting
byte: two's-complement reduction modulo 256. -/
def cByte (v : ℤ) : ℕ := (v % 256).toNat

/-- Embeds the Python enum `KK_ReportType`. -/
inductive KK_ReportType where
  | RT_NONE
  | RT_ERROR
  | RT_MESSAGE
  | RT_PHASE
  | RT_DOUBLE
  | RT_INT32
  deriving DecidableEq

/-- Embeds the enum-constructor call `KK_ReportType(v)`: `none` models the
`ValueError` raised for a tag outside 0..5. -/
def KK_ReportType.ofInt? (v : ℤ) : Option KK_ReportType :=
  if v = 0 then some .RT_NONE
  else if v = 1 then some .RT_ERROR
  else if v = 2 then some .RT_MESSAGE
  else if v = 3 then some .RT_PHASE
  else if v = 4 then some .RT_DOUBLE
  else if v = 5 then some .RT_INT32
  else none

/-- Embeds `KK_Report.get_report_type`. -/
def get_report_type (r : C_ReportStruct) : Except String KK_ReportType :=
  match KK_ReportType.ofInt? r.ReportType with
  | some t => .ok t
  | none => .error "ValueError"

/-- Per-channel element size chosen inside `KK_Report.get_channel_count`. -/
def elemSize (rt : KK_ReportType) : ℤ :=
  if rt = .RT_PHASE then 16
  else if rt = .RT_DOUBLE then 8
  else if rt = .RT_INT32 then 4
  else 0

/-- Embeds `KK_Report.get_channel_count` (first computation, before
memoisation): `Len // size` with Python floor division, forced to 0 when
`size * count` does not reproduce `Len`. -/
def get_channel_count (r : C_ReportStruct) : Except String ℤ := do
  let rt ← get_report_type r
  let size := elemSize rt
  let c : ℤ := if 0 < size then r.Len.fdiv size else 0
  .ok (if size * c ≠ r.Len then 0 else c)

/-- Reading `Content[i]` on the ctypes array followed by `c_byte` packing;
`none` from out-of-range indexing models Python's `IndexError`. -/
def readByte (content : List ℤ) (i : ℕ) : Except String ℕ :=
  match content[i]? with
  | some v => .ok (cByte v)
  | none => .error "IndexError"

/-- Reads `n` consecutive bytes starting at `start`, as the loop in
`KK_Report.get_content` does. -/
def readRange (content : List ℤ) (start : ℕ) : ℕ → Except String (List ℕ)
  | 0 => .ok []
  | n + 1 => do
    let b ← readByte content start
    let rest ← readRange content (start + 1) n
    .ok (b :: rest)

/-- Embeds `KK_Report.get_content`: `None` when `Len == 0`, otherwise the
first `Len` content bytes (an empty string when `Len < 0`, since Python's
`range` of a negative number is empty). -/
def get_content (r : C_ReportStruct) : Except String (Option (List ℕ)) :=
  if r.Len = 0 then .ok none
  else (readRange r.Content 0 r.Len.toNat).map some

/-- Big-endian value of a byte string, as `int.from_bytes(ba, 'big')`. -/
def beVal (bs : List ℕ) : ℕ := bs.foldl (fun a b => a * 256 + b) 0

/-- Little-endian value of a byte string, as `int.from_bytes(ba, 'little')`
(unsigned, which is Python's default). -/
def leVal (bs : List ℕ) : ℕ := bs.foldr (fun b a => a * 256 + b) 0

/-- Embeds `KK_Report.get_content_uint16`: sentinel `0xFFFF` when
`Len < 2`, otherwise the first two content bytes high-byte-first. -/
def get_content_uint16 (r : C_ReportStruct) : Except String ℕ :=
  if r.Len < 2 then .ok 0xFFFF
  else do
    let ba ← readRange r.Content 0 2
    .ok (beVal ba)

/-- Embeds `KK_Report.get_content_uint32`: sentinel `0xFFFFFFFF` when
`Len < 4`, otherwise the first four content bytes high-byte-first. -/
def get_content_uint32 (r : C_ReportStruct) : Except String ℕ :=
  if r.Len < 4 then .ok 0xFFFFFFFF
  else do
    let ba ← readRange r.Content 0 4
    .ok (beVal ba)

/-- Embeds `KK_Report.get_timestamp`: for headers 0x7015/0x7016 the
uint32 content value, multiplied by 10 for 0x7015; otherwise `-1`. -/
def get_timestamp (r : C_ReportStruct) : Except String ℤ :=
  if r.Header = 0x7015 ∨ r.Header = 0x7016 then do
    let t ← get_content_uint32 r
    .ok (if r.Header = 0x7015 then (t : ℤ) * 10 else (t : ℤ))
  else .ok (-1)

/-- Embeds `struct.unpack('d', chunk)`: the 64-bit pattern of the chunk
(little-endian host order); `struct.error` when the chunk is not 8 bytes.
Floats are represented by their bit patterns. -/
def unpack_d (bs : List ℕ) : Except String ℕ :=
  if bs.length = 8 then .ok (leVal bs) else .error "struct.error"

/-- Phase-decoding loop of `KK_Report.__init__`: per channel, 8 bytes via
`int.from_bytes(..., 'little')` (unsigned) for High, then 8 bytes via
`struct.unpack('d', ...)` for Low (kept as a bit pattern). -/
def decodePhases (ba : List ℕ) (off : ℕ) : ℕ → Except String (List (ℤ × ℕ))
  | 0 => .ok []
  | n + 1 => do
    let hi : ℤ := leVal ((ba.drop off).take 8)
    let lo ← unpack_d ((ba.drop (off + 8)).take 8)
    let rest ← decodePhases ba (off + 16) n
    .ok ((hi, lo) :: rest)

/-- Double-decoding loop of `KK_Report.__init__`. -/
def decodeDoubles (ba : List ℕ) (off : ℕ) : ℕ → Except String (List ℕ)
  | 0 => .ok []
  | n + 1 => do
    let f ← unpack_d ((ba.drop off).take 8)
    let rest ← decodeDoubles ba (off + 8) n
    .ok (f :: rest)

/-- Int32-decoding loop of `KK_Report.__init__` (`int.from_bytes` accepts
chunks of any length, so no exception is possible here). -/
def decodeInts (ba : List ℕ) (off : ℕ) : ℕ → List ℕ
  | 0 => []
  | n + 1 => leVal ((ba.drop off).take 4) :: decodeInts ba (off + 4) n

/-- Decoded report state produced by `KK_Report.__init__`. -/
structure KK_Report where
  error_code : ErrorCode
  channelCount : ℤ
  floats : List ℕ
  ints : List ℕ
  phases : List (ℤ × ℕ)
  deriving DecidableEq

/-- Embeds `KK_Report.__init__` in source order: error-code mapping, report
type, channel count, content extraction, then the per-kind decoding loops.
Content is `None` only when `Len == 0`, in which case the channel count is
0 and the loops read nothing, so the `None` case is replaced by `[]`. -/
def parseReport (r : C_ReportStruct) : Except String KK_Report := do
  let ec ← mapErrCode r.ErrCode
  let rt ← get_report_type r
  let cc ← get_channel_count r
  let ob ← get_content r
  let ba := ob.getD []
  let phases ← if rt = .RT_PHASE then decodePhases ba 0 cc.toNat else pure []
  let floats ← if rt = .RT_DOUBLE then decodeDoubles ba 0 cc.toNat else pure []
  let ints := if rt = .RT_INT32 then decodeInts ba 0 cc.toNat else []
  .ok ⟨ec, cc, floats, ints, phases⟩

/-- Modelled from the spec: the spec (and the comment on `RT_PHASE`, which
documents the High field as `c_int64`) requires the 8 High bytes to be read
as a signed little-endian 64-bit integer.  This definition follows those
words, for comparison with the unsigned decode the code performs. -/
def int64_le_signed (bs : List ℕ) : ℤ :=
  let u := leVal bs
  if 2 ^ 63 ≤ u then (u : ℤ) - 2 ^ 64 else (u : ℤ)

/-- Modelled from the spec: the claimed little-endian interpretation of a
timestamp report (first four content bytes little-endian, times 10 for
header 0x7015).  For comparison with `get_timestamp`. -/
def timestampLESpec (r : C_ReportStruct) : ℤ :=
  let u := leVal (((r.Content.map cByte).take 4))
  if r.Header = 0x7015 then (u : ℤ) * 10 else (u : ℤ)

/-- Embeds the Python class `Phase`; `Low` (a float in the source) is
modelled by a rational. -/
structure Phase where
  High : ℤ
  Low : ℚ
  deriving DecidableEq

/-- Truncation toward zero, as Python's `math.trunc`. -/
def ratTrunc (q : ℚ) : ℤ := if 0 ≤ q then ⌊q⌋ else ⌈q⌉

/-- Embeds `Phase.normalize`: shifts the integer part of `Low` into
`High`, branching on the sign of the combined value. -/
def Phase.normalize (p : Phase) : Phase :=
  let high := p.High
  let low := p.Low
  if (high : ℚ) + low < 0 then
    if 0 < low then
      ⟨high + (ratTrunc low + 1), low - ((ratTrunc low : ℚ) + 1)⟩
    else
      ⟨high + ratTrunc low, low - (ratTrunc low : ℚ)⟩
  else
    if low < 0 then
      ⟨high + (ratTrunc low - 1), low - ((ratTrunc low : ℚ) - 1)⟩
    else
      ⟨high + ratTrunc low, low - (ratTrunc low : ℚ)⟩

/-- Embeds `Phase.to_float`. -/
def Phase.to_float (p : Phase) : ℚ := (p.High : ℚ) + p.Low

/-- The clamp of the requested decimal count performed by
`Phase.to_str26`. -/
def clampDecimals (decimals : ℤ) : ℤ :=
  if decimals < 7 then 7 else if 11 < decimals then 11 else decimals

/-- Round to nearest, ties to even: the rounding performed by C's `%f`
formatting that `locale.format_string` delegates to. -/
def roundHalfEven (q : ℚ) : ℤ :=
  let f := ⌊q⌋
  let r := q - (f : ℚ)
  if r < 1 / 2 then f
  else if 1 / 2 < r then f + 1
  else if Even f then f else f + 1

/-- Fixed-width decimal rendering: the `d` least significant decimal
digits of `n`, zero padded. -/
def fixedDigits (n : ℕ) : ℕ → List Char
  | 0 => []
  | d + 1 => fixedDigits (n / 10) d ++ [Nat.digitChar (n % 10)]

/-- The digit block after the decimal separator in the `%.df` rendering of
`q`: its magnitude rounded at `d` decimals, modulo the integer part. -/
def fracDigitsChars (q : ℚ) (d : ℕ) : List Char :=
  fixedDigits (roundHalfEven (|q| * 10 ^ d)).toNat d

/-- Decimal rendering of an integer, as Python's `%d`. -/
def intChars (n : ℤ) : List Char := (toString n).toList

/-- Left padding to width `w`, as Python's right-justified formatting. -/
def padLeft (c : Char) (w : ℕ) (s : List Char) : List Char :=
  List.replicate (w - s.length) c ++ s

/-- Character-level body of `Phase.to_str26`: clamp the decimal count to
7..11, normalize, render the fractional digits after the locale separator
(modelled as '.'), right-justify the integer part into width
`25 - decimals`, patch a minus sign at index `23 - decimals` when
`High == 0` and `Low < 0`, and truncate to 26 characters. -/
def to_str26_chars (p : Phase) (decimals : ℤ) : List Char :=
  let d : ℕ := (clampDecimals decimals).toNat
  let p' := p.normalize
  let decimal_part : List Char := '.' :: fracDigitsChars p'.Low d
  let high_str : List Char := padLeft ' ' (25 - d) (intChars p'.High)
  let result := high_str ++ decimal_part
  let result := if p'.High = 0 ∧ p'.Low < 0 then result.set (23 - d) '-' else result
  if 26 < result.length then result.take 26 else result

/-- Embeds `Phase.to_str26`. -/
def Phase.to_str26 (p : Phase) (decimals : ℤ) : String :=
  ⟨to_str26_chars p decimals⟩

/-- Concrete Phase frame whose eight High bytes are all 0xFF (stored as the
signed c_byte value -1) and whose Low bytes are zero. -/
def phaseFrameFF : C_ReportStruct :=
  ⟨3, 1, 0, 16, 0, List.replicate 8 (-1) ++ List.replicate 8 0⟩

/-- Concrete Double frame with Len 16 and recognisable content bytes. -/
def doubleFrame16 : C_ReportStruct :=
  ⟨4, 1, 0, 16, 0, [1, 2, 3, 4, 5, 6, 7, 8, 9, 10, 11, 12, 13, 14, 15, 16]⟩

/-- Concrete Double frame with Len 15 (not a multiple of 8). -/
def doubleFrame15 : C_ReportStruct :=
  ⟨4, 1, 0, 15, 0, [1, 2, 3, 4, 5, 6, 7, 8, 9, 10, 11, 12, 13, 14, 15, 16]⟩

/-- Concrete 0x7015 timestamp frame whose content is the little-endian
encoding of 10. -/
def tsFrameLE : C_ReportStruct := ⟨2, 1, 0x7015, 4, 0, [10, 0, 0, 0]⟩

/-- Concrete 0x7015 timestamp frame whose content is the big-endian
encoding of 10. -/
def tsFrameBE : C_ReportStruct := ⟨2, 1, 0x7015, 4, 0, [0, 0, 0, 10]⟩

/-- Concrete frame with the unknown report-type tag 6. -/
def tagSixFrame : C_ReportStruct := ⟨6, 1, 0, 0, 0, []⟩

/-- Concrete frame whose Len field (497) exceeds the content capacity. -/
def overflowFrame : C_ReportStruct := ⟨4, 1, 0, 497, 0, List.replicate 496 0⟩

/-- Concrete frame with a single content byte. -/
def shortFrame : C_ReportStruct := ⟨2, 1, 0, 1, 0, [7]⟩

/-! ## Theorems -/

/-- Helper: masking with 0xC0 and shifting right by 6 extracts the two
bits at positions 6 and 7. -/
theorem and_192_shiftRight_6 (x : ℕ) : (x &&& 0x00C0) >>> 6 = x / 64 % 4 := by
  have h1 : (x &&& 192) >>> 6 = (x >>> 6) &&& 3 := by
    apply Nat.eq_of_testBit_eq
    intro i
    simp only [Nat.testBit_shiftRight, Nat.testBit_and]
    have h192 : Nat.testBit 192 (6 + i) = Nat.testBit 3 i := by
      match i with
      | 0 => decide
      | 1 => decide
      | n + 2 =>
        rw [Nat.testBit_lt_two_pow, Nat.testBit_lt_two_pow]
        · calc (3 : ℕ) < 2 ^ 2 := by decide
            _ ≤ 2 ^ (n + 2) := Nat.pow_le_pow_right (by decide) (by omega)
        · calc (192 : ℕ) < 2 ^ 8 := by decide
            _ ≤ 2 ^ (6 + (n + 2)) := Nat.pow_le_pow_right (by decide) (by omega)
    rw [h192]
  have h2 := Nat.and_pow_two_sub_one_eq_mod (x >>> 6) 2
  norm_num at h2
  rw [h1, h2, Nat.shiftRight_eq_div_pow]

/-- C8: for headers in [0, 0x7000) the PPI mode is the two bits at
positions 6-7, except that the value 2 yields the sentinel -1; headers at
or above 0x7000 also yield -1. -/
theorem ppi_mode_spec (h : ℤ) :
    (0 ≤ h → h < 0x7000 → header_to_PPI_mode h =
      (if h.toNat / 64 % 4 = 2 then -1 else ((h.toNat / 64 % 4 : ℕ) : ℤ))) ∧
    (0x7000 ≤ h → header_to_PPI_mode h = -1) := by
  constructor
  · intro h0 h1
    have hc : ¬(h < 0 ∨ 0x7000 ≤ h) := by omega
    unfold header_to_PPI_mode
    rw [if_neg hc]
    simp only [and_192_shiftRight_6]
  · intro h0
    unfold header_to_PPI_mode
    rw [if_pos (Or.inr h0)]

/-- Witness for C8 at the concrete header 0x45 (bits 6-7 equal 1). -/
theorem ppi_mode_spec_witness : header_to_PPI_mode 0x45 = 1 := by
  have := (ppi_mode_spec 0x45).1 (by decide) (by decide)
  exact this.trans (by decide)

/-- C10: content lengths below 2 and 4 make the uint16 and uint32 readers
return the sentinels 0xFFFF and 0xFFFFFFFF without raising. -/
theorem content_uint_sentinels (r : C_ReportStruct) :
    (r.Len < 2 → get_content_uint16 r = .ok 0xFFFF) ∧
    (r.Len < 4 → get_content_uint32 r = .ok 0xFFFFFFFF) := by
  constructor
  · intro h
    unfold get_content_uint16
    rw [if_pos h]
  · intro h
    unfold get_content_uint32
    rw [if_pos h]

/-- Witness for C10 at a concrete frame with Len 1. -/
theorem content_uint_sentinels_witness :
    get_content_uint16 shortFrame = .ok 0xFFFF ∧
    get_content_uint32 shortFrame = .ok 0xFFFFFFFF :=
  ⟨(content_uint_sentinels shortFrame).1 (by decide),
   (content_uint_sentinels shortFrame).2 (by decide)⟩

/-- Counterexample for C6: device code 0 maps to the generic-error
category, not to the no-error category the claim states. -/
theorem err_code_zero_not_no_error :
    mapErrCode 0 = .ok ErrorCode.KK_ERR ∧
    ErrorCode.KK_ERR ≠ ErrorCode.KK_NO_ERR := by decide

/-- C6 amended: code 1 maps to no-error, code 0 to generic error, and a
code absent from the device enum (such as 99) raises ValueError instead of
mapping to the generic category. -/
theorem err_code_mapping :
    mapErrCode 1 = .ok ErrorCode.KK_NO_ERR ∧
    mapErrCode 0 = .ok ErrorCode.KK_ERR ∧
    mapErrCode 99 = .error "ValueError" ∧
    (∀ v : ℤ, C_Report_Error_Code.ofInt? v = none →
      mapErrCode v = .error "ValueError") := by
  refine ⟨by decide, by decide, by decide, ?_⟩
  intro v hv
  unfold mapErrCode
  rw [hv]

/-- Witness for C6 at the concrete unmapped code 2. -/
theorem err_code_mapping_witness : mapErrCode 2 = .error "ValueError" :=
  err_code_mapping.2.2.2 2 (by decide)

/-- Counterexample for C5: the unknown tag 6 makes parsing raise
(ValueError from the enum constructor) instead of yielding a None-kind
report. -/
theorem unknown_tag_raises : parseReport tagSixFrame = .error "ValueError" := by
  decide

/-- C5 amended: a report-type byte outside 0..5 always makes the parser
raise (the error-code mapping may raise first, but an exception escapes
either way). -/
theorem unknown_tag_error (r : C_ReportStruct)
    (hrt : r.ReportType < 0 ∨ 5 < r.ReportType) :
    ∃ e, parseReport r = .error e := by
  have hof : KK_ReportType.ofInt? r.ReportType = none := by
    unfold KK_ReportType.ofInt?
    split_ifs <;> first | rfl | (exfalso; omega)
  cases hm : mapErrCode r.ErrCode with
  | error e =>
    exact ⟨e, by simp [parseReport, hm, Bind.bind, Except.bind]⟩
  | ok ec =>
    refine ⟨"ValueError", ?_⟩
    simp [parseReport, hm, get_report_type, hof, Bind.bind, Except.bind]

/-- Witness for C5 at the concrete tag-6 frame. -/
theorem unknown_tag_error_witness : ∃ e, parseReport tagSixFrame = .error e :=
  unknown_tag_error tagSixFrame (by decide)

/-- Counterexample for C4: on a 0x7015 frame whose four content bytes are
the little-endian encoding of 10, the decoder does not return 100 (the
value the claimed little-endian reading predicts) but 1677721600, because
it reads the bytes high-byte-first. -/
theorem timestamp_not_little_endian :
    get_timestamp tsFrameLE = .ok 1677721600 ∧
    timestampLESpec tsFrameLE = 100 ∧
    get_timestamp tsFrameLE ≠ .ok (timestampLESpec tsFrameLE) := by decide

/-- C4 amended: the timestamp is the first four content bytes read
big-endian, times 10 for header 0x7015. -/
theorem timestamp_big_endian (r : C_ReportStruct) (bs : List ℕ)
    (hh : r.Header = 0x7015 ∨ r.Header = 0x7016)
    (hlen : ¬r.Len < 4)
    (hbs : readRange r.Content 0 4 = .ok bs) :
    get_timestamp r = .ok ((if r.Header = 0x7015 then 10 else 1) * beVal bs) := by
  have hu : get_content_uint32 r = .ok (beVal bs) := by
    unfold get_content_uint32
    rw [if_neg hlen, hbs]
    rfl
  unfold get_timestamp
  rw [if_pos hh, hu]
  show Except.ok _ = _
  rcases hh with hh | hh <;> rw [hh]
  · simp [mul_comm]
  · norm_num

/-- Witness for C4 at a concrete frame whose content big-endian-encodes
the value 10. -/
theorem timestamp_big_endian_witness : get_timestamp tsFrameBE = .ok 100 := by
  have := timestamp_big_endian tsFrameBE [0, 0, 0, 10] (Or.inl rfl)
    (by decide) (by decide)
  exact this.trans (by decide)

/-- Counterexample for C9: the content capacity is not 454 bytes. -/
theorem content_size_not_454 : KK_REPORT_CONTENT_SIZE ≠ 454 := by decide

/-- Helper: reading past the end of the content buffer produces an
IndexError. -/
theorem readRange_overflow (content : List ℤ) :
    ∀ n start, content.length < start + n → 0 < n →
      ∃ e, readRange content start n = .error e := by
  intro n
  induction n with
  | zero => intro start h h0; omega
  | succ m ih =>
    intro start h _
    by_cases hs : content.length ≤ start
    · refine ⟨"IndexError", ?_⟩
      have hg : content[start]? = none := List.getElem?_eq_none hs
      simp [readRange, readByte, hg, Bind.bind, Except.bind]
    · push_neg at hs
      obtain ⟨e, he⟩ := ih (start + 1) (by omega) (by omega)
      cases hv : content[start]? with
      | none =>
        rw [List.getElem?_eq_none_iff] at hv
        omega
      | some v =>
        refine ⟨e, ?_⟩
        simp [readRange, readByte, hv, he, Bind.bind, Except.bind]

/-- C9 amended: the content capacity is 496 bytes (512-byte struct), and a
frame whose Len exceeds it makes content extraction raise IndexError; the
parser neither rejects nor clamps such a frame. -/
theorem content_overflow_raises :
    KK_REPORT_CONTENT_SIZE = 496 ∧
    ∀ r : C_ReportStruct, r.Content.length = KK_REPORT_CONTENT_SIZE →
      496 < r.Len → ∃ e, get_content r = .error e := by
  refine ⟨rfl, ?_⟩
  intro r hlen hLen
  have h496 : r.Content.length = 496 := by
    rw [hlen]; rfl
  obtain ⟨e, he⟩ := readRange_overflow r.Content r.Len.toNat 0 (by omega) (by omega)
  refine ⟨e, ?_⟩
  unfold get_content
  rw [if_neg (by omega), he]
  rfl

/-- Witness for C9 at a concrete 496-byte frame with Len 497. -/
theorem content_overflow_raises_witness :
    ∃ e, get_content overflowFrame = .error e :=
  content_overflow_raises.2 overflowFrame
    (by rw [show overflowFrame.Content = List.replicate 496 0 from rfl,
      List.length_replicate]; rfl)
    (by decide)

/-- C1 (code evaluated at the failing input): a Phase frame whose High
bytes are all 0xFF decodes High to 2^64 - 1, the unsigned little-endian
reading, where the signed reading required by the claim (and by the
source's own c_int64 documentation) gives -1. -/
theorem phase_high_decoded_unsigned :
    parseReport phaseFrameFF =
      .ok ⟨.KK_NO_ERR, 1, [], [], [((18446744073709551615 : ℤ), 0)]⟩ ∧
    int64_le_signed (List.replicate 8 255) = -1 ∧
    (18446744073709551615 : ℤ) ≠ -1 := by decide

/-- C2: for Phase, Double and Int32 frames the channel count is
Len / element-size when the division is exact and 0 otherwise; a Double
frame with Len 16 decodes exactly the two float64 patterns of the first 16
content bytes, and Len 15 decodes an empty array with channel count 0 and
no exception. -/
theorem channel_count_spec :
    (∀ (r : C_ReportStruct) (rt : KK_ReportType), get_report_type r = .ok rt →
      rt = .RT_PHASE ∨ rt = .RT_DOUBLE ∨ rt = .RT_INT32 →
      get_channel_count r =
        .ok (if elemSize rt ∣ r.Len then r.Len.fdiv (elemSize rt) else 0)) ∧
    parseReport doubleFrame16 =
      .ok ⟨.KK_NO_ERR, 2,
        [leVal [1, 2, 3, 4, 5, 6, 7, 8], leVal [9, 10, 11, 12, 13, 14, 15, 16]],
        [], []⟩ ∧
    parseReport doubleFrame15 = .ok ⟨.KK_NO_ERR, 0, [], [], []⟩ := by
  refine ⟨?_, by decide, by decide⟩
  intro r rt hrt hmem
  have hpos : 0 < elemSize rt := by
    rcases hmem with h | h | h <;> rw [h] <;> decide
  unfold get_channel_count
  rw [hrt]
  show Except.ok _ = _
  rw [if_pos hpos]
  by_cases hdvd : elemSize rt ∣ r.Len
  · rw [if_pos hdvd]
    obtain ⟨k, hk⟩ := hdvd
    have hcancel : elemSize rt * ((elemSize rt * k).fdiv (elemSize rt)) =
        elemSize rt * k := by
      rw [Int.mul_fdiv_cancel_left k (by omega)]
    rw [hk, if_neg (by simp [hcancel])]
  · rw [if_neg hdvd]
    have hne : elemSize rt * r.Len.fdiv (elemSize rt) ≠ r.Len := fun hc =>
      hdvd (Dvd.intro _ hc)
    rw [if_pos hne]

/-- Witness for C2: the Len-16 Double frame has channel count 2. -/
theorem channel_count_spec_witness : get_channel_count doubleFrame16 = .ok 2 := by
  have := channel_count_spec.1 doubleFrame16 .RT_DOUBLE (by decide)
    (Or.inr (Or.inl rfl))
  exact this.trans (by decide)

/-- C3 (code evaluated at the failing input): at High = -2, Low = 1
(values on which float64 arithmetic is exact) one application of
normalize yields (0, -1) — already outside the (-1, 0] range the source's
own comment asserts for the result — and a second application moves the
pair again, to (-1, 0), so normalize is not idempotent as the spec
requires. -/
theorem normalize_not_idempotent :
    Phase.normalize (Phase.normalize ⟨-2, 1⟩) ≠ Phase.normalize ⟨-2, 1⟩ := by
  have h1 : Phase.normalize ⟨-2, 1⟩ = ⟨0, -1⟩ := by
    unfold Phase.normalize ratTrunc
    norm_num
  have h2 : Phase.normalize ⟨0, -1⟩ = ⟨-1, 0⟩ := by
    unfold Phase.normalize ratTrunc
    have hc : ⌈(-1 : ℚ)⌉ = -1 := by
      rw [show (-1 : ℚ) = ((-1 : ℤ) : ℚ) by norm_num, Int.ceil_intCast]
    norm_num [hc]
  rw [h1, h2]
  intro hc
  have := congrArg Phase.High hc
  simp at this

/-- Helper: clampDecimals lands in [7, 11]. -/
theorem clampDecimals_bounds (x : ℤ) :
    7 ≤ clampDecimals x ∧ clampDecimals x ≤ 11 := by
  unfold clampDecimals
  split_ifs <;> omega

/-- Helper: clampDecimals is idempotent. -/
theorem clampDecimals_idem (x : ℤ) :
    clampDecimals (clampDecimals x) = clampDecimals x := by
  unfold clampDecimals
  split_ifs <;> omega

/-- Helper: fixed-width digit rendering has the requested width. -/
theorem fixedDigits_length (d : ℕ) : ∀ n, (fixedDigits n d).length = d := by
  induction d with
  | zero => intro n; rfl
  | succ m ih =>
    intro n
    simp [fixedDigits, ih]

/-- Helper: the fractional digit block has the requested width. -/
theorem fracDigitsChars_length (q : ℚ) (d : ℕ) :
    (fracDigitsChars q d).length = d := fixedDigits_length d _

/-- Helper: padding length. -/
theorem padLeft_length (c : Char) (w : ℕ) (s : List Char) :
    (padLeft c w s).length = (w - s.length) + s.length := by
  simp [padLeft]

/-- Helper: the conditional sign patch preserves length. -/
theorem set_if_length (c : Prop) [Decidable c] (X : List Char) (i : ℕ) (ch : Char) :
    (if c then X.set i ch else X).length = X.length := by
  split_ifs <;> simp

/-- Helper: the final truncation yields exactly 26 characters whenever
the input has at least 26. -/
theorem truncate26_length (X : List Char) (h : 26 ≤ X.length) :
    (if 26 < X.length then X.take 26 else X).length = 26 := by
  split_ifs with h1
  · simp
    omega
  · omega

/-- Helper: the character list built by to_str26 has exactly 26
characters, for every phase and every requested decimal count. -/
theorem to_str26_chars_length (p : Phase) (decimals : ℤ) :
    (to_str26_chars p decimals).length = 26 := by
  have hb := clampDecimals_bounds decimals
  unfold to_str26_chars
  dsimp only
  apply truncate26_length
  rw [set_if_length, List.length_append, padLeft_length]
  simp [fracDigitsChars_length]
  omega

/-- Helper: when the normalized phase has High 0 and negative Low, the
sign lands at index 23 - d, immediately before the zero at 24 - d. -/
theorem to_str26_chars_sign (p : Phase) (decimals : ℤ)
    (h0 : p.normalize.High = 0) (h1 : p.normalize.Low < 0) :
    (to_str26_chars p decimals)[23 - (clampDecimals decimals).toNat]? = some '-' ∧
    (to_str26_chars p decimals)[24 - (clampDecimals decimals).toNat]? = some '0' := by
  have hb := clampDecimals_bounds decimals
  unfold to_str26_chars
  dsimp only
  set d := (clampDecimals decimals).toNat with hdd
  have hd7 : 7 ≤ d := by omega
  have hd11 : d ≤ 11 := by omega
  rw [h0, show intChars 0 = ['0'] from rfl]
  have hpad : padLeft ' ' (25 - d) ['0'] = List.replicate (24 - d) ' ' ++ ['0'] := by
    unfold padLeft
    have h2524 : 25 - d - List.length ['0'] = 24 - d := by
      simp only [List.length_singleton]
      omega
    rw [h2524]
  rw [hpad]
  set f := fracDigitsChars p.normalize.Low d with hf
  have hflen : f.length = d := by
    rw [hf]
    exact fracDigitsChars_length _ _
  have hXlen : ((List.replicate (24 - d) ' ' ++ ['0']) ++ '.' :: f).length = 26 := by
    simp [hflen]
    omega
  have hR26 : (if (0 : ℤ) = 0 ∧ p.normalize.Low < 0 then
      ((List.replicate (24 - d) ' ' ++ ['0']) ++ '.' :: f).set (23 - d) '-'
      else (List.replicate (24 - d) ' ' ++ ['0']) ++ '.' :: f).length = 26 := by
    rw [set_if_length]
    exact hXlen
  rw [if_neg (by omega : ¬26 < (if (0 : ℤ) = 0 ∧ p.normalize.Low < 0 then
      ((List.replicate (24 - d) ' ' ++ ['0']) ++ '.' :: f).set (23 - d) '-'
      else (List.replicate (24 - d) ' ' ++ ['0']) ++ '.' :: f).length)]
  rw [if_pos (show (0 : ℤ) = 0 ∧ p.normalize.Low < 0 from ⟨rfl, h1⟩)]
  have hset : (((List.replicate (24 - d) ' ' ++ ['0']) ++ '.' :: f).set
      (23 - d) '-').length = 26 := by
    rw [List.length_set]
    exact hXlen
  constructor
  · exact List.getElem?_set_self (by rw [hXlen]; omega)
  · rw [List.getElem?_set_ne (by omega : 23 - d ≠ 24 - d)]
    rw [List.getElem?_append_left (by simp)]
    rw [List.getElem?_append_right (by simp)]
    have hz : 24 - d - (List.replicate (24 - d) ' ').length = 0 := by simp
    rw [hz]
    rfl

/-- C7: to_str26 clamps the decimal count into [7, 11] and always returns
a string of exactly 26 characters; when the normalized phase has High 0
and negative Low, the minus sign sits in the right-justified integer-part
field at index 23 - decimals, immediately before the zero at index
24 - decimals. -/
theorem to_str26_spec (p : Phase) (decimals : ℤ) :
    (Phase.to_str26 p decimals).length = 26 ∧
    Phase.to_str26 p decimals = Phase.to_str26 p (clampDecimals decimals) ∧
    (7 ≤ clampDecimals decimals ∧ clampDecimals decimals ≤ 11) ∧
    (p.normalize.High = 0 → p.normalize.Low < 0 →
      (Phase.to_str26 p decimals).data[23 - (clampDecimals decimals).toNat]? =
        some '-' ∧
      (Phase.to_str26 p decimals).data[24 - (clampDecimals decimals).toNat]? =
        some '0') := by
  refine ⟨to_str26_chars_length p decimals, ?_, clampDecimals_bounds decimals, ?_⟩
  · unfold Phase.to_str26 to_str26_chars
    rw [clampDecimals_idem]
  · intro h0 h1
    exact to_str26_chars_sign p decimals h0 h1

/-- Witness for C7 at Phase(0, -0.25) with 8 requested decimals. -/
theorem to_str26_spec_witness :
    (Phase.to_str26 ⟨0, -1/4⟩ 8).length = 26 ∧
    (Phase.to_str26 ⟨0, -1/4⟩ 8).data[15]? = some '-' ∧
    (Phase.to_str26 ⟨0, -1/4⟩ 8).data[16]? = some '0' := by
  have hn : Phase.normalize ⟨0, -1/4⟩ = ⟨0, -1/4⟩ := by
    unfold Phase.normalize ratTrunc
    norm_num
  have hidx : (23 - (clampDecimals 8).toNat) = 15 ∧
      (24 - (clampDecimals 8).toNat) = 16 := by decide
  have hs := (to_str26_spec ⟨0, -1/4⟩ 8).2.2.2
    (by rw [hn]) (by rw [hn]; norm_num)
  refine ⟨(to_str26_spec ⟨0, -1/4⟩ 8).1, ?_, ?_⟩
  · have := hs.1
    rwa [hidx.1] at this
  · have := hs.2
    rwa [hidx.2] at this

end KKLib
